import Mathlib

/-
Verification of the WrapAIVenice conversation-memory core.

The Python sources embedded here:
  - VeniceTextPrompt.parse_response      (prompt_text.py, lines 113-147)
  - VeniceTextPrompt.prompt              (prompt_text.py, lines 49-110), as the
    transport abstraction consumed by the chat layer
  - VeniceChatPrompt.prompt              (prompt_chat.py, lines 66-79)
  - VeniceChatPrompt.set_model           (prompt_chat.py, lines 50-59)
  - VeniceChatPrompt.summarize_memory    (prompt_chat.py, lines 81-98)
  - VeniceChatPrompt.get_trimmed_messages_for_model (prompt_chat.py, lines 100-129)
  - VeniceChatPrompt.trim_and_summarize_if_needed   (prompt_chat.py, lines 131-137)

The ConversationMemory class (prompt_chat_memory.py) and the VeniceModels
registry (info/models.py) are imported by prompt_chat.py but their source is
not part of this tree; they are modelled from the specification where noted.
Text is modelled as List Char; Python integers as Int (token counts, which are
nonnegative, as Nat); a Python call that raises is modelled as returning none.
-/

namespace WrapAIVenice

/-- Strips leading and trailing whitespace from a character list, modelling
the Python str.strip method (restricted to the ASCII whitespace characters
recognised by Char.isWhitespace, which covers the inputs of interest). -/
def strip (s : List Char) : List Char :=
  ((s.dropWhile Char.isWhitespace).reverse.dropWhile Char.isWhitespace).reverse

/-- Index of the first occurrence of pat as a contiguous sublist of s,
modelling the Python str.find method (none for the -1 result). -/
def findSub (pat : List Char) : List Char → Option Nat
  | [] => if pat.isEmpty then some 0 else none
  | c :: rest =>
    if pat.isPrefixOf (c :: rest) then some 0
    else (findSub pat rest).map (fun n => n + 1)

/-- True when pat occurs as a contiguous sublist of s, modelling the Python
membership test on strings. -/
def containsSub (pat s : List Char) : Bool :=
  (findSub pat s).isSome

/-- Fuelled worker for replaceAll.  Each step either copies one character or,
when pat matches at the current position, emits rep and skips pat.  Since
every step consumes at least one character of s when pat is nonempty, fuel
equal to the length of s never runs out; the fuel-exhausted branch is
unreachable from replaceAll for the nonempty patterns used in this file. -/
def replaceAllF (pat rep : List Char) : Nat → List Char → List Char
  | _, [] => []
  | 0, s => s
  | fuel + 1, c :: rest =>
    if pat.isPrefixOf (c :: rest)
    then rep ++ replaceAllF pat rep fuel (List.drop pat.length (c :: rest))
    else c :: replaceAllF pat rep fuel rest

/-- Replaces every occurrence of pat in s by rep in a single left-to-right
pass over the original string, modelling the Python str.replace method
(non-overlapping occurrences, no rescan of replaced text). -/
def replaceAll (pat rep s : List Char) : List Char :=
  replaceAllF pat rep s.length s

/-- The literal opening think tag used by parse_response. -/
def thinkOpenTag : List Char := "<think>".toList

/-- The literal closing think tag used by parse_response. -/
def thinkCloseTag : List Char := "</think>".toList

/-- The two tag-removal passes parse_response applies to each extracted
field: first every occurrence of the opening tag is removed, then every
occurrence of the closing tag (prompt_text.py, lines 133-134). -/
def tagScrub (s : List Char) : List Char :=
  replaceAll thinkCloseTag [] (replaceAll thinkOpenTag [] s)

namespace VeniceTextPrompt

/-- The message object inside a choice of the external response JSON: its
content field may be absent. -/
structure ChoiceMessage where
  content : Option (List Char)
  deriving DecidableEq

/-- One element of the choices list of the external response JSON: its
message field may be absent. -/
structure Choice where
  message : Option ChoiceMessage
  deriving DecidableEq

/-- The venice_parameters object of the external response JSON. -/
structure VeniceParams where
  web_search_citations : Option (List String)
  deriving DecidableEq

/-- The external response JSON object, restricted to the fields
parse_response reads; every field may be absent (none). -/
structure ResponseJson where
  choices : Option (List Choice)
  venice_parameters : Option VeniceParams
  model : Option String
  created : Option Int
  usage : Option (List (String × Nat))
  deriving DecidableEq

/-- The created field of the parsed result: either the JSON value or the
default substituted when the field is absent. -/
inductive CreatedField
  | na
  | val (n : Int)
  deriving DecidableEq

/-- The dictionary parse_response builds (prompt_text.py, lines 119-147). -/
structure ParsedResponse where
  think : List Char
  response : List Char
  citations : List String
  model : String
  created : CreatedField
  usage : List (String × Nat)
  deriving DecidableEq

/-- Content extraction of prompt_text.py line 119:
response_json.get with default list-of-one-empty-dict, indexed at 0, then
two further .get calls with defaults.  When the choices field is absent the
defaults chain to the empty string; when it is present but an empty list,
indexing raises IndexError, modelled as none; otherwise the first choice is
read through its optional message and content fields. -/
def extractContent (rj : ResponseJson) : Option (List Char) :=
  match rj.choices with
  | none => some []
  | some [] => none
  | some (c :: _) => some (((c.message.getD { content := none }).content).getD [])

/-- The total tail of parse_response (prompt_text.py, lines 121-147), applied
once content extraction has succeeded: split at the first closing think tag
if present, strip each part, scrub the tags, and assemble the result record
with defaults for absent fields. -/
def mkParsed (rj : ResponseJson) (content : List Char) : ParsedResponse :=
  let pair :=
    match findSub thinkCloseTag content with
    | some i =>
        (strip (content.take i), strip (content.drop (i + thinkCloseTag.length)))
    | none => ([], strip content)
  { think := tagScrub pair.1
    response := tagScrub pair.2
    citations := ((rj.venice_parameters.getD { web_search_citations := none }).web_search_citations).getD []
    model := rj.model.getD ("N/A")
    created :=
      match rj.created with
      | some n => CreatedField.val n
      | none => CreatedField.na
    usage := rj.usage.getD [] }

/-- VeniceTextPrompt.parse_response (prompt_text.py, lines 113-147); none
models the IndexError raised when choices is present but empty. -/
def parse_response (rj : ResponseJson) : Option ParsedResponse :=
  (extractContent rj).map (mkParsed rj)

end VeniceTextPrompt

/-- Modelled from the spec: the role of a chat message (section 3, Message
record with role in the enum system, user, assistant). -/
inductive Role
  | system
  | user
  | assistant
  deriving DecidableEq

/-- Modelled from the spec: a chat message, an ordered record of a role and
text content (section 3). -/
structure Message where
  role : Role
  content : List Char
  deriving DecidableEq

/-- Summed estimated token cost of a list of messages for a given
token-estimation function tok. -/
def costSum (tok : List Char → Nat) (ms : List Message) : Nat :=
  (ms.map (fun m => tok m.content)).sum

/-- Modelled from the spec: the ConversationMemory state (section 3) whose
source file prompt_chat_memory.py is not part of this tree.  It owns the
ordered message list (index 0 the system message, never empty, per the
stated invariant) and the mutable max_tokens budget.  The token-estimation
function calculate_tokens is, per the spec, an arbitrary deterministic pure
function of the text; it is passed as an explicit parameter tok to every
operation that needs it, and the derived token_count cache is computed from
it. -/
structure ConversationMemory where
  messages : List Message
  max_tokens : Int
  deriving DecidableEq

namespace ConversationMemory

/-- Modelled from the spec: token_count is the summed estimated cost of all
messages, recomputed after every mutation (section 3), hence representable
as a derived value. -/
def token_count (tok : List Char → Nat) (m : ConversationMemory) : Nat :=
  costSum tok m.messages

/-- Modelled from the spec: add_message appends a message at the tail
(section 4.2, append transition). -/
def add_message (m : ConversationMemory) (role : Role) (content : List Char) :
    ConversationMemory :=
  { m with messages := m.messages ++ [{ role := role, content := content }] }

/-- Modelled from the spec: update_system_prompt replaces the content of
message 0 in place (section 4.2); on the unreachable empty list (the
invariant keeps messages nonempty) it is the identity. -/
def update_system_prompt (m : ConversationMemory) (text : List Char) :
    ConversationMemory :=
  { m with messages :=
      match m.messages with
      | [] => []
      | s :: rest => { s with content := text } :: rest }

/-- Modelled from the spec: reset_with_summary drops all history and
replaces it with the system message followed by one user message carrying
the summary text (section 4.2); identity on the unreachable empty list. -/
def reset_with_summary (m : ConversationMemory) (text : List Char) :
    ConversationMemory :=
  { m with messages :=
      match m.messages with
      | [] => []
      | s :: _ => [s, { role := Role.user, content := text }] }

/-- Modelled from the spec: message_history, the accessor through which the
orchestrator reads the full current message sequence (section 4.3, the
prompt flow asks Memory for the current message sequence). -/
def message_history (m : ConversationMemory) : List Message :=
  m.messages

end ConversationMemory

/-- The parsed transport result as consumed by the chat layer, which reads
only the response text field of the dictionary VeniceTextPrompt.prompt
returns (prompt_chat.py, lines 78 and 97). -/
structure TResp where
  response : List Char
  deriving DecidableEq

/-- The transport collaborator: VeniceTextPrompt.prompt called with an
explicit message list, abstracted (per spec section 6) as a function of the
active model and the message sequence; none models every failure path of
prompt_text.py lines 88-110 (error payload, timeout, HTTP or request
error), all of which return None. -/
def TransportFn : Type :=
  String → List Message → Option TResp

/-- The registry collaborator VeniceModels.get_tokens_by_model_name
(info/models.py, not part of this tree), modelled from the spec
(section 4.1): a map from model name to integer token limit, none for the
unknown sentinel; the isinstance int check in prompt_chat.py maps some to
the integer branch and none to the fallback branch. -/
def RegistryFn : Type :=
  String → Option Int

/-- The mutable state of a VeniceChatPrompt object as read and written by
the embedded methods: the active model of the inner VeniceTextPrompt, the
optional summary model, the parsed_response cache the inner prompt call
stores on success, and the conversation memory. -/
structure ChatState where
  venice_model : String
  summary_model : Option String
  parsed_response : Option TResp
  memory : ConversationMemory
  deriving DecidableEq

namespace VeniceChatPrompt

open ConversationMemory

/-- The budget available to non-forced messages in
get_trimmed_messages_for_model (prompt_chat.py, lines 105-112): the
registry limit of the model when it is an int, else the memory max_tokens
fallback, minus the buffer and the estimated cost of the summary prompt. -/
def target_limit (tok : List Char → Nat) (registry : RegistryFn)
    (mem : ConversationMemory) (model : String) (summary_prompt : List Char)
    (buffer : Int) : Int :=
  (registry model).getD mem.max_tokens - buffer - (tok summary_prompt : Int)

/-- The trimming loop of prompt_chat.py lines 119-124, walking a message
list (here already reversed, newest first) with the running total current,
keeping each message whose cost fits and stopping at the first that would
push the total over target. -/
def trimLoop (tok : List Char → Nat) (target : Int) :
    List Message → Int → List Message
  | [], _ => []
  | m :: rest, current =>
    if current + (tok m.content : Int) > target then []
    else m :: trimLoop tok target rest (current + (tok m.content : Int))

/-- VeniceChatPrompt.get_trimmed_messages_for_model (prompt_chat.py, lines
100-129).  The source builds the result by starting from the system message
(messages[0], whose cost seeds the running total), inserting each kept
message at position 1 while walking the rest newest-first, and appending
the summary prompt as a trailing user message; the insert-at-1 loop is
equivalent to reversing the kept newest-first list.  none models the
IndexError on the unreachable empty message list. -/
def get_trimmed_messages_for_model (tok : List Char → Nat)
    (registry : RegistryFn) (mem : ConversationMemory) (model : String)
    (summary_prompt : List Char) (buffer : Int) : Option (List Message) :=
  match mem.messages with
  | [] => none
  | sys :: rest =>
    some (sys ::
      ((trimLoop tok (target_limit tok registry mem model summary_prompt buffer)
          rest.reverse (tok sys.content : Int)).reverse
        ++ [{ role := Role.user, content := summary_prompt }]))

/-- VeniceChatPrompt.summarize_memory (prompt_chat.py, lines 81-98): choose
the summary model (override, else configured summary model, else active
model), trim memory to fit it, send through the transport with the model
temporarily switched (and restored by the finally block, so the returned
state keeps the original active model), and return the stripped response
text on success or the fixed fallback string on failure.  On success the
inner VeniceTextPrompt.prompt stores the parsed response. -/
def summarize_memory (tok : List Char → Nat) (registry : RegistryFn)
    (transport : TransportFn) (st : ChatState) (summary_prompt : List Char)
    (model_override : Option String) (buffer : Int) :
    Option (List Char × ChatState) :=
  let summary_model := model_override.getD (st.summary_model.getD st.venice_model)
  match get_trimmed_messages_for_model tok registry st.memory summary_model
      summary_prompt buffer with
  | none => none
  | some msgs =>
    match transport summary_model msgs with
    | some tr => some (strip tr.response, { st with parsed_response := some tr })
    | none => some (("Summary not available.").toList, st)

/-- VeniceChatPrompt.trim_and_summarize_if_needed (prompt_chat.py, lines
131-137).  The Python guard token_count > max_tokens * 0.8 is embedded as
the exact rational comparison 5 * token_count > 4 * max_tokens. -/
def trim_and_summarize_if_needed (tok : List Char → Nat)
    (registry : RegistryFn) (transport : TransportFn) (st : ChatState)
    (summary_prompt : List Char) (model_override : Option String) :
    Option ChatState :=
  if 4 * st.memory.max_tokens < 5 * (token_count tok st.memory : Int) then
    match summarize_memory tok registry transport st summary_prompt
        model_override 200 with
    | none => none
    | some p => some { p.2 with memory := reset_with_summary p.2.memory p.1 }
  else some st

/-- VeniceChatPrompt.prompt (prompt_chat.py, lines 66-79): optionally
update the system prompt, append the user message, send the full message
history through the transport under the active model, and on success store
the parsed response and append the assistant reply; on failure return None
and leave the rest of the state as it stands. -/
def prompt (transport : TransportFn) (st : ChatState) (user_prompt : List Char)
    (system_prompt : Option (List Char)) : Option TResp × ChatState :=
  let mem1 :=
    match system_prompt with
    | some sp => update_system_prompt st.memory sp
    | none => st.memory
  let mem2 := add_message mem1 Role.user user_prompt
  match transport st.venice_model (message_history mem2) with
  | some tr =>
      (some tr,
        { st with
            parsed_response := some tr
            memory := add_message mem2 Role.assistant tr.response })
  | none => (none, { st with memory := mem2 })

/-- VeniceChatPrompt.set_model (prompt_chat.py, lines 50-59): set the new
active model, then update the memory token limit only when the registry
resolves it to an int; otherwise keep the previous value and only warn. -/
def set_model (registry : RegistryFn) (st : ChatState) (model_id : String) :
    ChatState :=
  let st1 := { st with venice_model := model_id }
  match registry model_id with
  | some limit => { st1 with memory := { st1.memory with max_tokens := limit } }
  | none => st1

end VeniceChatPrompt

/-
Concrete fixtures used by counterexamples and witnesses.
-/

/-- A concrete token-estimation function (length of the text), a valid
instance of the deterministic length-monotonic estimator the spec allows. -/
def cTok : List Char → Nat := fun s => s.length

/-- A concrete registry: model-a has limit 100, model-b has limit 10, all
other names are unknown. -/
def cRegistry : RegistryFn := fun m =>
  if m = "model-a" then some 100 else if m = "model-b" then some 10 else none

/-- A transport that always fails (returns None). -/
def failTransport : TransportFn := fun _ _ => none

/-- A transport that always succeeds with a fixed padded reply. -/
def okTransport : TransportFn := fun _ _ => some { response := ("  ok result  ").toList }

/-- A concrete system message of cost 3 under cTok. -/
def sysMsg : Message := { role := Role.system, content := ("sys").toList }

/-- A concrete user message of cost 5 under cTok. -/
def helloMsg : Message := { role := Role.user, content := ("hello").toList }

/-- The user message carrying the fixed fallback summary text. -/
def fallbackMsg : Message :=
  { role := Role.user, content := ("Summary not available.").toList }

/-- A concrete memory holding the system message and one user message,
with budget 100. -/
def cMemory : ConversationMemory := { messages := [sysMsg, helloMsg], max_tokens := 100 }

/-- A concrete chat state over cMemory bound to model-a. -/
def cState : ChatState :=
  { venice_model := "model-a", summary_model := none, parsed_response := none,
    memory := cMemory }

/-- A memory identical to cMemory but with budget 4, so the 0.8 threshold
is exceeded (token count 8 > 3.2). -/
def c9Memory : ConversationMemory := { messages := [sysMsg, helloMsg], max_tokens := 4 }

/-- A chat state over c9Memory bound to model-a. -/
def c9State : ChatState :=
  { venice_model := "model-a", summary_model := none, parsed_response := none,
    memory := c9Memory }

/-- A memory whose only message is the system message, used against the
small limit of model-b with an oversized buffer. -/
def c1Memory : ConversationMemory :=
  { messages := [{ role := Role.system, content := ("ab").toList }], max_tokens := 77 }

/-- A response JSON whose choices field is present but an empty list. -/
def rjC8 : VeniceTextPrompt.ResponseJson :=
  { choices := some [], venice_parameters := none, model := none,
    created := none, usage := none }

/-- A response JSON with every field absent. -/
def rjC8w : VeniceTextPrompt.ResponseJson :=
  { choices := none, venice_parameters := none, model := none,
    created := none, usage := none }

/-- A response JSON whose content interleaves fragments of the opening
think tag around a complete copy of it. -/
def rjC10 : VeniceTextPrompt.ResponseJson :=
  { choices := some [{ message := some { content := some (("<th<think>ink>").toList) } }],
    venice_parameters := none, model := none, created := none, usage := none }

/-- A response JSON whose content has a closing think tag after one
character. -/
def rjC10w : VeniceTextPrompt.ResponseJson :=
  { choices := some [{ message := some { content := some (("a</think>b").toList) } }],
    venice_parameters := none, model := none, created := none, usage := none }

/-- The parsed result of rjC10w. -/
def prC10w : VeniceTextPrompt.ParsedResponse :=
  VeniceTextPrompt.mkParsed rjC10w (("a</think>b").toList)

/-
Lemmas about the trimming loop.
-/

open VeniceTextPrompt VeniceChatPrompt ConversationMemory

/-- Cost of a cons cell. -/
lemma costSum_cons (tok : List Char → Nat) (m : Message) (ms : List Message) :
    costSum tok (m :: ms) = tok m.content + costSum tok ms := by
  simp [costSum]

/-- Reversal preserves the summed cost. -/
lemma costSum_reverse (tok : List Char → Nat) (ms : List Message) :
    costSum tok ms.reverse = costSum tok ms := by
  simp [costSum, List.sum_reverse]

/-- The trimming loop returns a prefix of its input; the kept prefix fits
the budget (when nonempty), and the first dropped message, if any, would
push the running total over the budget. -/
lemma trimLoop_split (tok : List Char → Nat) (target : Int) :
    ∀ (l : List Message) (c : Int),
      ∃ d, l = trimLoop tok target l c ++ d ∧
        (trimLoop tok target l c ≠ [] →
          c + (costSum tok (trimLoop tok target l c) : Int) ≤ target) ∧
        (∀ m d2, d = m :: d2 →
          target < c + (costSum tok (trimLoop tok target l c) : Int) + (tok m.content : Int)) := by
  intro l
  induction l with
  | nil =>
      intro c
      exact ⟨[], by simp [trimLoop], by simp [trimLoop], by intro m d2 h; cases h⟩
  | cons m rest ih =>
      intro c
      by_cases h : c + (tok m.content : Int) > target
      · refine ⟨m :: rest, ?_, ?_, ?_⟩
        · simp [trimLoop, h]
        · intro hne
          simp [trimLoop, h] at hne
        · intro m2 d2 hd
          rw [show trimLoop tok target (m :: rest) c = [] by simp [trimLoop, h]]
          injection hd with h1 h2
          subst h1
          simp [costSum]
          omega
      · obtain ⟨d, hsplit, hfits, hover⟩ := ih (c + (tok m.content : Int))
        have hloop : trimLoop tok target (m :: rest) c
            = m :: trimLoop tok target rest (c + (tok m.content : Int)) := by
          simp [trimLoop, h]
        refine ⟨d, ?_, ?_, ?_⟩
        · rw [hloop, List.cons_append]
          exact congrArg (m :: ·) hsplit
        · intro _
          rw [hloop, costSum_cons]
          by_cases hK : trimLoop tok target rest (c + (tok m.content : Int)) = []
          · rw [hK]
            simp [costSum]
            omega
          · have := hfits hK
            push_cast at this ⊢
            omega
        · intro m2 d2 hd
          have := hover m2 d2 hd
          rw [hloop, costSum_cons]
          push_cast at this ⊢
          omega

/-- Unfolding of get_trimmed_messages_for_model on a nonempty memory. -/
lemma get_trimmed_eq (tok : List Char → Nat) (registry : RegistryFn)
    (mem : ConversationMemory) (model : String) (sp : List Char) (buffer : Int)
    (sys : Message) (rest : List Message)
    (hmsg : mem.messages = sys :: rest) :
    get_trimmed_messages_for_model tok registry mem model sp buffer =
      some (sys ::
        ((trimLoop tok (target_limit tok registry mem model sp buffer)
            rest.reverse (tok sys.content : Int)).reverse
          ++ [{ role := Role.user, content := sp }])) := by
  simp [get_trimmed_messages_for_model, hmsg]

/-- Characterization of the kept suffix produced by the trimming loop when
seeded with the system-message cost: it is a suffix of the history (rest =
dropped ++ kept), it fits the budget together with the system message when
nonempty, the newest dropped message (the last of the dropped block) would
overflow, and a system message alone over budget forces the empty suffix. -/
lemma kept_characterization (tok : List Char → Nat) (t : Int) (sysc : Nat)
    (rest : List Message) :
    ∃ S D,
      (trimLoop tok t rest.reverse (sysc : Int)).reverse = S ∧
      rest = D ++ S ∧
      (S ≠ [] → (sysc : Int) + (costSum tok S : Int) ≤ t) ∧
      (∀ D2 m, D = D2 ++ [m] →
        t < (sysc : Int) + (costSum tok S : Int) + (tok m.content : Int)) ∧
      (t < (sysc : Int) → S = []) := by
  obtain ⟨d, hsplit, hfits, hover⟩ := trimLoop_split tok t rest.reverse (sysc : Int)
  refine ⟨(trimLoop tok t rest.reverse (sysc : Int)).reverse, d.reverse, rfl, ?_, ?_, ?_, ?_⟩
  · have := congrArg List.reverse hsplit
    simpa [List.reverse_append] using this
  · intro hS
    have hK : trimLoop tok t rest.reverse (sysc : Int) ≠ [] := by
      intro h0
      exact hS (by rw [h0]; rfl)
    have := hfits hK
    rwa [costSum_reverse]
  · intro D2 m hD
    have hd : d = m :: D2.reverse := by
      have := congrArg List.reverse hD
      simpa [List.reverse_append] using this
    have := hover m D2.reverse hd
    rwa [costSum_reverse]
  · intro ht
    by_cases hK : trimLoop tok t rest.reverse (sysc : Int) = []
    · rw [hK]; rfl
    · have := hfits hK
      have hpos : (0 : Int) ≤ (costSum tok (trimLoop tok t rest.reverse (sysc : Int)) : Int) := by
        positivity
      omega

/-- C1 (amended): for a memory with the system message at index 0 and a
model whose limit L the registry knows, the returned sequence, excluding
the forced system message at index 0 and the trailing extra-prompt message,
has summed estimated cost at most max 0 (L - buffer - cost of the extra
prompt); the original bound L - buffer - cost holds whenever it is
nonnegative. -/
theorem c1_trimmed_budget (tok : List Char → Nat) (registry : RegistryFn)
    (mem : ConversationMemory) (model : String) (sp : List Char) (buffer : Int)
    (L : Int) (sys : Message) (rest : List Message) (tr : List Message)
    (hmsg : mem.messages = sys :: rest)
    (hsys : sys.role = Role.system)
    (hreg : registry model = some L)
    (htr : get_trimmed_messages_for_model tok registry mem model sp buffer = some tr) :
    (costSum tok ((tr.drop 1).dropLast) : Int)
      ≤ max 0 (L - buffer - (tok sp : Int)) := by
  rw [get_trimmed_eq tok registry mem model sp buffer sys rest hmsg] at htr
  have htr2 : tr =
      sys :: ((trimLoop tok (target_limit tok registry mem model sp buffer)
          rest.reverse (tok sys.content : Int)).reverse
        ++ [{ role := Role.user, content := sp }]) := by
    injection htr with h
    exact h.symm
  obtain ⟨S, D, hSdef, hsuffix, hfits, hover, hforce⟩ :=
    kept_characterization tok (target_limit tok registry mem model sp buffer)
      (tok sys.content) rest
  have htarget : target_limit tok registry mem model sp buffer
      = L - buffer - (tok sp : Int) := by
    simp [target_limit, hreg]
  have hmid : (tr.drop 1).dropLast = S := by
    rw [htr2, hSdef.symm]
    simp
  rw [hmid]
  by_cases hS : S = []
  · rw [hS]
    simp [costSum]
  · have := hfits hS
    rw [htarget] at this
    have hpos : (0 : Int) ≤ (tok sys.content : Int) := by positivity
    have : (costSum tok S : Int) ≤ L - buffer - (tok sp : Int) := by omega
    exact this.trans (le_max_right 0 _)

/-- C1 counterexample: with the limit 10 of model-b, buffer 200 and an
extra prompt of cost 5, the bound L - buffer - cost is -195, yet the
returned sequence (system message plus extra prompt, nothing in between)
has excluded-cost 0, which exceeds that bound, so the claim as stated
fails. -/
theorem c1_counterexample :
    cRegistry ("model-b") = some 10 ∧
    c1Memory.messages = [{ role := Role.system, content := ("ab").toList }] ∧
    get_trimmed_messages_for_model cTok cRegistry c1Memory ("model-b")
        (("hello").toList) 200
      = some [{ role := Role.system, content := ("ab").toList },
              { role := Role.user, content := ("hello").toList }] ∧
    ¬ ((costSum cTok ((([{ role := Role.system, content := ("ab").toList },
              { role := Role.user, content := ("hello").toList }] : List Message).drop 1).dropLast) : Int)
        ≤ 10 - 200 - (cTok (("hello").toList) : Int)) := by
  decide

/-- C1 witness: the amended bound evaluated on a concrete memory, model-a
of limit 100, buffer 10 and extra prompt of cost 1. -/
theorem c1_witness :
    (costSum cTok ((([sysMsg, helloMsg, { role := Role.user, content := ("p").toList }] : List Message).drop 1).dropLast) : Int)
      ≤ max 0 (100 - 10 - (cTok (("p").toList) : Int)) :=
  c1_trimmed_budget cTok cRegistry cMemory ("model-a") (("p").toList) 10 100
    sysMsg [helloMsg] _ rfl rfl (by decide) (by decide)

/-- C2: on a memory with the system message at index 0, the trimmed
sequence is exactly the system message, then a contiguous suffix S of the
non-system history in original order, then the extra prompt as a trailing
user message; S together with the system message fits the remaining budget
when nonempty, the message just older than S (when one was dropped) would
push the running total over the budget — so iteration stopped at the first
overflow with no skipping ahead — and if the system message alone already
exceeds the budget then S is empty, the call returning (not crashing). -/
theorem c2_trimmed_shape (tok : List Char → Nat) (registry : RegistryFn)
    (mem : ConversationMemory) (model : String) (sp : List Char) (buffer : Int)
    (sys : Message) (rest : List Message)
    (hmsg : mem.messages = sys :: rest)
    (hsys : sys.role = Role.system) :
    ∃ S D,
      get_trimmed_messages_for_model tok registry mem model sp buffer
        = some (sys :: (S ++ [{ role := Role.user, content := sp }])) ∧
      rest = D ++ S ∧
      (S ≠ [] →
        (tok sys.content : Int) + (costSum tok S : Int)
          ≤ target_limit tok registry mem model sp buffer) ∧
      (∀ D2 m, D = D2 ++ [m] →
        target_limit tok registry mem model sp buffer
          < (tok sys.content : Int) + (costSum tok S : Int) + (tok m.content : Int)) ∧
      (target_limit tok registry mem model sp buffer < (tok sys.content : Int) → S = []) := by
  obtain ⟨S, D, hSdef, hsuffix, hfits, hover, hforce⟩ :=
    kept_characterization tok (target_limit tok registry mem model sp buffer)
      (tok sys.content) rest
  refine ⟨S, D, ?_, hsuffix, hfits, hover, hforce⟩
  rw [get_trimmed_eq tok registry mem model sp buffer sys rest hmsg, hSdef]

/-- C2 witness: the shape characterization evaluated on the concrete
memory holding the system message and one user message. -/
theorem c2_witness :
    ∃ S D,
      get_trimmed_messages_for_model cTok cRegistry cMemory ("model-a")
          (("p").toList) 10
        = some (sysMsg :: (S ++ [{ role := Role.user, content := ("p").toList }])) ∧
      [helloMsg] = D ++ S ∧
      (S ≠ [] →
        (cTok sysMsg.content : Int) + (costSum cTok S : Int)
          ≤ target_limit cTok cRegistry cMemory ("model-a") (("p").toList) 10) ∧
      (∀ D2 m, D = D2 ++ [m] →
        target_limit cTok cRegistry cMemory ("model-a") (("p").toList) 10
          < (cTok sysMsg.content : Int) + (costSum cTok S : Int) + (cTok m.content : Int)) ∧
      (target_limit cTok cRegistry cMemory ("model-a") (("p").toList) 10
          < (cTok sysMsg.content : Int) → S = []) :=
  c2_trimmed_shape cTok cRegistry cMemory ("model-a") (("p").toList) 10
    sysMsg [helloMsg] rfl rfl

/-- C3: trim_and_summarize_if_needed compacts stored history — it equals
summarize_memory followed by reset_with_summary on its result — exactly
when token_count exceeds 0.8 of max_tokens at entry (embedded as the exact
rational comparison 5 * token_count > 4 * max_tokens); below the threshold
it returns the state completely unchanged. -/
theorem c3_trim_iff_threshold (tok : List Char → Nat) (registry : RegistryFn)
    (transport : TransportFn) (st : ChatState) (sp : List Char)
    (mo : Option String) :
    (¬ 4 * st.memory.max_tokens < 5 * (token_count tok st.memory : Int) →
      trim_and_summarize_if_needed tok registry transport st sp mo = some st) ∧
    (4 * st.memory.max_tokens < 5 * (token_count tok st.memory : Int) →
      trim_and_summarize_if_needed tok registry transport st sp mo =
        (summarize_memory tok registry transport st sp mo 200).map
          (fun p => { p.2 with memory := reset_with_summary p.2.memory p.1 })) := by
  constructor
  · intro h
    simp [trim_and_summarize_if_needed, h]
  · intro h
    simp only [trim_and_summarize_if_needed, if_pos h]
    cases hs : summarize_memory tok registry transport st sp mo 200 with
    | none => rfl
    | some p => rfl

/-- C3 witness: on the concrete state whose token count 8 is below 0.8 of
the budget 100, the call returns the state unchanged. -/
theorem c3_witness :
    trim_and_summarize_if_needed cTok cRegistry failTransport cState
        (("sum").toList) none = some cState :=
  (c3_trim_iff_threshold cTok cRegistry failTransport cState
    (("sum").toList) none).1 (by decide)

/-- C4: when the transport fails on the send, the chat prompt call returns
the failure result (none) to the caller and the memory equals the pre-call
memory with only the user message appended; no assistant message is
added. -/
theorem c4_prompt_transport_failure (transport : TransportFn) (st : ChatState)
    (u : List Char)
    (h : transport st.venice_model
        (message_history (add_message st.memory Role.user u)) = none) :
    VeniceChatPrompt.prompt transport st u none =
      (none, { st with memory := add_message st.memory Role.user u }) := by
  simp [VeniceChatPrompt.prompt, h]

/-- C4 witness: the failure-path equation evaluated on the concrete state
with the always-failing transport. -/
theorem c4_witness :
    VeniceChatPrompt.prompt failTransport cState (("hi").toList) none =
      (none, { cState with memory := add_message cState.memory Role.user (("hi").toList) }) :=
  c4_prompt_transport_failure failTransport cState (("hi").toList) rfl

/-- C5 (amended): summarize_memory returns the fixed fallback string
"Summary not available." (not "no summary available" as the claim stated)
when the transport fails, and the transport response text stripped of
surrounding whitespace when it succeeds. -/
theorem c5_summarize_result (tok : List Char → Nat) (registry : RegistryFn)
    (transport : TransportFn) (st : ChatState) (sp : List Char)
    (mo : Option String) (buffer : Int) (sm : String) (msgs : List Message)
    (hsm : mo.getD (st.summary_model.getD st.venice_model) = sm)
    (hmsgs : get_trimmed_messages_for_model tok registry st.memory sm sp buffer
      = some msgs) :
    (transport sm msgs = none →
      summarize_memory tok registry transport st sp mo buffer
        = some ((("Summary not available.").toList), st)) ∧
    (∀ tr, transport sm msgs = some tr →
      summarize_memory tok registry transport st sp mo buffer
        = some (strip tr.response, { st with parsed_response := some tr })) := by
  subst hsm
  constructor
  · intro ht
    simp [summarize_memory, hmsgs, ht]
  · intro tr ht
    simp [summarize_memory, hmsgs, ht]

/-- C5 counterexample: on a concrete failing transport the returned text is
"Summary not available.", which is not the string "no summary available"
stated by the claim. -/
theorem c5_counterexample :
    (summarize_memory cTok cRegistry failTransport cState (("sum").toList)
        none 10).map Prod.fst
      = some (("Summary not available.").toList) ∧
    ("Summary not available.").toList ≠ ("no summary available").toList := by
  decide

/-- C5 witness: both branches of the amended statement on concrete states:
the failing transport yields the fallback text and the succeeding transport
yields its reply stripped of surrounding whitespace. -/
theorem c5_witness :
    summarize_memory cTok cRegistry failTransport cState (("sum").toList) none 10
      = some ((("Summary not available.").toList), cState) ∧
    summarize_memory cTok cRegistry okTransport cState (("sum").toList) none 10
      = some (("ok result").toList,
          { cState with parsed_response := some { response := ("  ok result  ").toList } }) := by
  constructor
  · exact (c5_summarize_result cTok cRegistry failTransport cState
      (("sum").toList) none 10 ("model-a") [sysMsg, helloMsg,
        { role := Role.user, content := ("sum").toList }] rfl (by decide)).1 rfl
  · have := (c5_summarize_result cTok cRegistry okTransport cState
      (("sum").toList) none 10 ("model-a") [sysMsg, helloMsg,
        { role := Role.user, content := ("sum").toList }] rfl (by decide)).2
      { response := ("  ok result  ").toList } rfl
    rw [this]
    decide

/-- C6: summarize_memory never mutates the conversation memory: whenever it
returns, the resulting state has the same message list, the same token
count and the same max_tokens as before the call, whatever the transport
did. -/
theorem c6_summarize_frame (tok : List Char → Nat) (registry : RegistryFn)
    (transport : TransportFn) (st : ChatState) (sp : List Char)
    (mo : Option String) (buffer : Int) (r : List Char) (st2 : ChatState)
    (h : summarize_memory tok registry transport st sp mo buffer = some (r, st2)) :
    st2.memory.messages = st.memory.messages ∧
    token_count tok st2.memory = token_count tok st.memory ∧
    st2.memory.max_tokens = st.memory.max_tokens := by
  have hmem : st2.memory = st.memory := by
    cases hg : get_trimmed_messages_for_model tok registry st.memory
        (mo.getD (st.summary_model.getD st.venice_model)) sp buffer with
    | none =>
        rw [show summarize_memory tok registry transport st sp mo buffer = none by
          simp [summarize_memory, hg]] at h
        cases h
    | some msgs =>
      cases ht : transport (mo.getD (st.summary_model.getD st.venice_model)) msgs with
      | none =>
          rw [show summarize_memory tok registry transport st sp mo buffer
              = some ((("Summary not available.").toList), st) by
            simp [summarize_memory, hg, ht]] at h
          injection h with h2
          injection h2 with h3 h4
          rw [← h4]
      | some tr =>
          rw [show summarize_memory tok registry transport st sp mo buffer
              = some (strip tr.response, { st with parsed_response := some tr }) by
            simp [summarize_memory, hg, ht]] at h
          injection h with h2
          injection h2 with h3 h4
          rw [← h4]
  exact ⟨by rw [hmem], by rw [hmem], by rw [hmem]⟩

/-- C6 witness: the frame property evaluated on the concrete state with the
failing transport. -/
theorem c6_witness :
    cState.memory.messages = cState.memory.messages ∧
    token_count cTok cState.memory = token_count cTok cState.memory ∧
    cState.memory.max_tokens = cState.memory.max_tokens :=
  c6_summarize_frame cTok cRegistry failTransport cState (("sum").toList)
    none 10 (("Summary not available.").toList) cState (by decide)

/-- C7: when the registry cannot resolve the new model to an integer limit,
set_model keeps the previous memory budget unchanged (and, being a total
function, surfaces no error); the active model is still switched. -/
theorem c7_set_model_unknown (registry : RegistryFn) (st : ChatState)
    (mid : String)
    (h : registry mid = none) :
    (set_model registry st mid).memory.max_tokens = st.memory.max_tokens ∧
    (set_model registry st mid).venice_model = mid := by
  simp [set_model, h]

/-- C7 witness: switching the concrete state to an unknown model name keeps
the budget 100. -/
theorem c7_witness :
    (set_model cRegistry cState ("mystery")).memory.max_tokens
        = cState.memory.max_tokens ∧
    (set_model cRegistry cState ("mystery")).venice_model = ("mystery") :=
  c7_set_model_unknown cRegistry cState ("mystery") (by decide)

/-- C9: when the threshold fires and the transport fails, the history is
still compacted: the stored messages become the system message followed by
one user message carrying the literal fallback text "Summary not
available."; the prior conversation is replaced by that placeholder. -/
theorem c9_trim_fail_compacts (tok : List Char → Nat) (registry : RegistryFn)
    (transport : TransportFn) (st : ChatState) (sp : List Char)
    (mo : Option String) (sys : Message) (rest : List Message)
    (hmsg : st.memory.messages = sys :: rest)
    (htrans : ∀ m msgs, transport m msgs = none)
    (hth : 4 * st.memory.max_tokens < 5 * (token_count tok st.memory : Int)) :
    trim_and_summarize_if_needed tok registry transport st sp mo =
      some { st with memory := { st.memory with
        messages := [sys, fallbackMsg] } } := by
  simp only [trim_and_summarize_if_needed, if_pos hth]
  rw [show summarize_memory tok registry transport st sp mo 200
      = some ((("Summary not available.").toList), st) by
    simp [summarize_memory,
      get_trimmed_eq tok registry st.memory
        (mo.getD (st.summary_model.getD st.venice_model)) sp 200 sys rest hmsg,
      htrans]]
  simp [reset_with_summary, hmsg, fallbackMsg]

/-- C9 witness: the compaction-on-failure equation evaluated on the
concrete over-threshold state with the failing transport. -/
theorem c9_witness :
    trim_and_summarize_if_needed cTok cRegistry failTransport c9State
        (("sum").toList) none =
      some { c9State with memory := { c9State.memory with
        messages := [sysMsg, fallbackMsg] } } :=
  c9_trim_fail_compacts cTok cRegistry failTransport c9State (("sum").toList)
    none sysMsg [helloMsg] rfl (fun _ _ => rfl) (by decide)

/-- Correctness of findSub on a hit: the pattern occurs at the returned
index and at no earlier index. -/
lemma findSub_first (pat : List Char) :
    ∀ (s : List Char) (j : Nat), findSub pat s = some j →
      pat.isPrefixOf (s.drop j) = true ∧
      ∀ i, i < j → pat.isPrefixOf (s.drop i) = false := by
  intro s
  induction s with
  | nil =>
      intro j h
      by_cases hp : pat.isEmpty
      · simp [findSub, hp] at h
        subst h
        have hpat : pat = [] := by
          cases pat with
          | nil => rfl
          | cons a l => simp [List.isEmpty] at hp
        refine ⟨by simp [hpat, List.isPrefixOf], ?_⟩
        intro i hi
        omega
      · simp [findSub, hp] at h
  | cons c rest ih =>
      intro j h
      by_cases hp : pat.isPrefixOf (c :: rest) = true
      · rw [show findSub pat (c :: rest) = some 0 by simp [findSub, hp]] at h
        injection h with h0
        subst h0
        exact ⟨by simpa using hp, by intro i hi; omega⟩
      · rw [show findSub pat (c :: rest) = (findSub pat rest).map (fun n => n + 1) by
          simp [findSub, hp]] at h
        cases hr : findSub pat rest with
        | none => rw [hr] at h; cases h
        | some j2 =>
            rw [hr] at h
            injection h with h0
            have h0b : j = j2 + 1 := by simpa using h0.symm
            subst h0b
            obtain ⟨h1, h2⟩ := ih j2 hr
            refine ⟨by simpa using h1, ?_⟩
            intro i hi
            cases i with
            | zero =>
                simp only [List.drop_zero]
                exact Bool.eq_false_iff.mpr hp
            | succ i2 => simpa using h2 i2 (by omega)

/-- Correctness of findSub on a miss: the pattern occurs at no index. -/
lemma findSub_miss (pat : List Char) :
    ∀ (s : List Char), findSub pat s = none →
      ∀ i, pat.isPrefixOf (s.drop i) = false := by
  intro s
  induction s with
  | nil =>
      intro h i
      by_cases hp : pat.isEmpty
      · simp [findSub, hp] at h
      · cases pat with
        | nil => simp [List.isEmpty] at hp
        | cons a l => simp [List.isPrefixOf]
  | cons c rest ih =>
      intro h i
      by_cases hp : pat.isPrefixOf (c :: rest) = true
      · rw [show findSub pat (c :: rest) = some 0 by simp [findSub, hp]] at h
        cases h
      · rw [show findSub pat (c :: rest) = (findSub pat rest).map (fun n => n + 1) by
          simp [findSub, hp]] at h
        cases hr : findSub pat rest with
        | none =>
            cases i with
            | zero =>
                simp only [List.drop_zero]
                exact Bool.eq_false_iff.mpr hp
            | succ i2 => simpa using ih hr i2
        | some j2 => rw [hr] at h; cases h

/-- C8 counterexample: on the response JSON whose choices field is present
but an empty list, parse_response does not return a result — the none
models the IndexError raised by indexing the empty list at 0 — so the
claim that every response object is handled without a fatal error fails. -/
theorem c8_counterexample : parse_response rjC8 = none := by decide

/-- C8 (amended): for every response JSON whose choices field is not a
present-but-empty list, parse_response returns a result and substitutes
defaults for every missing field: a missing choices, message or content
field yields empty think and response text, a missing model field yields
"N/A", a missing created field yields the N/A marker, and a missing usage
field yields the empty map. -/
theorem c8_parse_defaults (rj : ResponseJson)
    (h : rj.choices ≠ some []) :
    ∃ r, parse_response rj = some r ∧
      (rj.model = none → r.model = "N/A") ∧
      (rj.created = none → r.created = CreatedField.na) ∧
      (rj.usage = none → r.usage = []) ∧
      ((rj.choices = none ∨
        ∃ c cs, rj.choices = some (c :: cs) ∧
          (c.message = none ∨ c.message = some { content := none })) →
        r.think = [] ∧ r.response = []) := by
  have hex : ∃ content, extractContent rj = some content := by
    cases hc : rj.choices with
    | none => exact ⟨[], by simp [extractContent, hc]⟩
    | some l =>
        cases l with
        | nil => exact absurd hc h
        | cons c cs =>
            exact ⟨((c.message.getD { content := none }).content).getD [],
              by simp [extractContent, hc]⟩
  obtain ⟨content, hc⟩ := hex
  refine ⟨mkParsed rj content, by simp [parse_response, hc], ?_, ?_, ?_, ?_⟩
  · intro hm
    simp [mkParsed, hm]
  · intro hcr
    simp [mkParsed, hcr]
  · intro hu
    simp [mkParsed, hu]
  · intro hmiss
    have hcontent : content = [] := by
      rcases hmiss with hnone | ⟨c, cs, hcs, hmsg⟩
      · simp only [extractContent, hnone, Option.some.injEq] at hc
        exact hc.symm
      · rcases hmsg with h1 | h1 <;>
        · simp only [extractContent, hcs, h1, Option.getD_none, Option.getD_some,
            Option.some.injEq] at hc
          exact hc.symm
    subst hcontent
    constructor <;> rfl

/-- C8 witness: the all-fields-absent response object satisfies the
hypothesis and every default. -/
theorem c8_witness :
    ∃ r, parse_response rjC8w = some r ∧
      (rjC8w.model = none → r.model = "N/A") ∧
      (rjC8w.created = none → r.created = CreatedField.na) ∧
      (rjC8w.usage = none → r.usage = []) ∧
      ((rjC8w.choices = none ∨
        ∃ c cs, rjC8w.choices = some (c :: cs) ∧
          (c.message = none ∨ c.message = some { content := none })) →
        r.think = [] ∧ r.response = []) :=
  c8_parse_defaults rjC8w (by decide)

/-- C10 counterexample: on content interleaving fragments of the opening
tag around a complete copy, the single-pass replacement reconstructs the
tag: the parsed response field is exactly the string of the opening think
tag, so the claim that the output never contains a tag fails. -/
theorem c10_counterexample :
    (parse_response rjC10).map ParsedResponse.response
        = some (("<think>").toList) ∧
    containsSub thinkOpenTag (("<think>").toList) = true := by
  decide

/-- C10 (amended): for every input on which parse_response returns, the
split behaviour holds as claimed: when the closing think tag occurs in the
content, the text before its first occurrence, whitespace-stripped and then
tag-scrubbed by the single left-to-right replacement pass, becomes the
think field, and the text after it becomes the response field; when the tag
does not occur, think is empty and response is the whole content stripped
and scrubbed.  The scrub removes each occurrence present in the stripped
text in one pass, but — as the counterexample shows — juxtaposed fragments
can reconstruct a tag, so the fields are not guaranteed tag-free. -/
theorem c10_think_split (rj : ResponseJson) (content : List Char)
    (r : ParsedResponse)
    (hc : extractContent rj = some content)
    (hr : parse_response rj = some r) :
    (∀ j, thinkCloseTag.isPrefixOf (content.drop j) = true →
      (∀ i, i < j → thinkCloseTag.isPrefixOf (content.drop i) = false) →
      r.think = tagScrub (strip (content.take j)) ∧
      r.response = tagScrub (strip (content.drop (j + thinkCloseTag.length)))) ∧
    ((∀ i, thinkCloseTag.isPrefixOf (content.drop i) = false) →
      r.think = [] ∧ r.response = tagScrub (strip content)) := by
  have hr2 : r = mkParsed rj content := by
    rw [parse_response, hc] at hr
    injection hr with h0
    exact h0.symm
  subst hr2
  constructor
  · intro j hj hmin
    cases hf : findSub thinkCloseTag content with
    | none =>
        have := findSub_miss thinkCloseTag content hf j
        rw [hj] at this
        cases this
    | some j2 =>
        obtain ⟨h1, h2⟩ := findSub_first thinkCloseTag content j2 hf
        have hjj : j2 = j := by
          rcases lt_trichotomy j2 j with hlt | heq | hgt
          · have := hmin j2 hlt
            rw [h1] at this
            cases this
          · exact heq
          · have := h2 j hgt
            rw [hj] at this
            cases this
        subst hjj
        constructor <;> simp [mkParsed, hf]
  · intro hnone
    cases hf : findSub thinkCloseTag content with
    | some j2 =>
        obtain ⟨h1, _⟩ := findSub_first thinkCloseTag content j2 hf
        have := hnone j2
        rw [h1] at this
        cases this
    | none =>
        constructor
        · simp [mkParsed, hf]
          rfl
        · simp [mkParsed, hf]

/-- C10 witness: the split characterization applied at the concrete content
with the closing tag after one character, instantiated at the first
occurrence index 1, with both sides evaluated. -/
theorem c10_witness :
    prC10w.think = ("a").toList ∧ prC10w.response = ("b").toList := by
  have h := c10_think_split rjC10w (("a</think>b").toList) prC10w
    (by decide) (by decide)
  have h2 := h.1 1 (by decide) (by decide)
  exact ⟨h2.1.trans (by decide), h2.2.trans (by decide)⟩

end WrapAIVenice
